import Mathlib

/-!
Shallow embedding of the council-ai decision-and-dispatch core:
the chat message model (`src/council/contexts/_chat_message.py`),
the execution-context path logic (`src/council/contexts/_execution_context.py`),
and the LLM controller (`src/council/controllers/llm_controller.py`).
-/

/-- `ChatMessageKind` enum from `_chat_message.py`. -/
inductive ChatMessageKind where
  | User
  | Agent
  | Chain
  | Skill
deriving DecidableEq, Repr

/-- `ChatMessage` from `_chat_message.py`: text, kind, opaque payload, source, error flag.
The Python `data: Any` payload is embedded as `Option String` (opaque to all operations). -/
structure ChatMessage where
  message : String
  kind : ChatMessageKind
  data : Option String
  source : String
  isError : Bool
deriving DecidableEq, Repr

/-- Factory `ChatMessage.user`. -/
def ChatMessage.user (message : String) (data : Option String) (source : String)
    (isError : Bool) : ChatMessage :=
  ⟨message, ChatMessageKind.User, data, source, isError⟩

/-- Factory `ChatMessage.agent`. -/
def ChatMessage.agent (message : String) (data : Option String) (source : String)
    (isError : Bool) : ChatMessage :=
  ⟨message, ChatMessageKind.Agent, data, source, isError⟩

/-- Factory `ChatMessage.skill`. -/
def ChatMessage.skill (message : String) (data : Option String) (source : String)
    (isError : Bool) : ChatMessage :=
  ⟨message, ChatMessageKind.Skill, data, source, isError⟩

/-- Factory `ChatMessage.chain`. -/
def ChatMessage.chain (message : String) (data : Option String) (source : String)
    (isError : Bool) : ChatMessage :=
  ⟨message, ChatMessageKind.Chain, data, source, isError⟩

/-- Property `ChatMessage.is_error`. -/
def ChatMessage.is_error (m : ChatMessage) : Bool := m.isError

/-- Property `ChatMessage.is_ok`: `not self._is_error`. -/
def ChatMessage.is_ok (m : ChatMessage) : Bool := !m.isError

/-- Method `ChatMessage.is_of_kind`: `self._kind == kind`. -/
def ChatMessage.is_of_kind (m : ChatMessage) (kind : ChatMessageKind) : Bool :=
  decide (m.kind = kind)

/-- Property `ChatMessage.is_kind_user`. -/
def ChatMessage.is_kind_user (m : ChatMessage) : Bool := decide (m.kind = ChatMessageKind.User)

/-- Property `ChatMessage.is_kind_agent`. -/
def ChatMessage.is_kind_agent (m : ChatMessage) : Bool := decide (m.kind = ChatMessageKind.Agent)

/-- Property `ChatMessage.is_kind_chain`. -/
def ChatMessage.is_kind_chain (m : ChatMessage) : Bool := decide (m.kind = ChatMessageKind.Chain)

/-- Property `ChatMessage.is_kind_skill`. -/
def ChatMessage.is_kind_skill (m : ChatMessage) : Bool := decide (m.kind = ChatMessageKind.Skill)

/-- Method `ChatMessage.is_from_source`: `self._source == source`. -/
def ChatMessage.is_from_source (m : ChatMessage) (source : String) : Bool :=
  decide (m.source = source)

/-- `ScoredChatMessage` from `_chat_message.py`: a message with a float score.
The Python float score is embedded as `ℚ` (only comparisons are performed on it). -/
structure ScoredChatMessage where
  message : ChatMessage
  score : ℚ

/-- `ScoredChatMessage.__gt__`: `self.score > other.score`. -/
def ScoredChatMessage.gt (a b : ScoredChatMessage) : Bool := decide (a.score > b.score)

/-- `ScoredChatMessage.__lt__`: `self.score < other.score`. -/
def ScoredChatMessage.lt (a b : ScoredChatMessage) : Bool := decide (a.score < b.score)

/-- `ScoredChatMessage.__ge__`: `self.score >= other.score`. -/
def ScoredChatMessage.ge (a b : ScoredChatMessage) : Bool := decide (a.score ≥ b.score)

/-- `ScoredChatMessage.__le__`: `self.score <= other.score`. -/
def ScoredChatMessage.le (a b : ScoredChatMessage) : Bool := decide (a.score ≤ b.score)

/-! ## Execution context and log paths -/

/-- A log entry keyed by its path (`source`).
Modelled from the spec: `ExecutionLogEntry` (its module is not under `src/`); the spec
only requires the hierarchical path string, here the `source` field. -/
structure ExecutionLogEntry where
  source : String
deriving DecidableEq, Repr

/-- Modelled from the spec: `ExecutionLog`, "a tree of named trace entries keyed by a
slash-separated path" (its module is not under `src/`); embedded as the list of entries
in creation order. -/
structure ExecutionLog where
  entries : List ExecutionLogEntry
deriving DecidableEq, Repr

/-- Modelled from the spec: `ExecutionLog.new_entry(path)` "creates a child entry
whose path is ... and returns a handle"; the entry records the given path. -/
def ExecutionLog.new_entry (log : ExecutionLog) (path : String) :
    ExecutionLog × ExecutionLogEntry :=
  (⟨log.entries ++ [⟨path⟩]⟩, ⟨path⟩)

/-- A monitored component; only its `name` is relevant to path construction. -/
structure Monitored where
  name : String
deriving DecidableEq, Repr

/-- `ExecutionContext` from `_execution_context.py`: an execution log plus the entry
created for this context. -/
structure ExecutionContext where
  log : ExecutionLog
  entry : ExecutionLogEntry
deriving DecidableEq, Repr

/-- `ExecutionContext.__init__(execution_log, path)`: `self._entry = log.new_entry(path)`. -/
def ExecutionContext.create (log : ExecutionLog) (path : String) : ExecutionContext :=
  let p := log.new_entry path
  ⟨p.1, p.2⟩

/-- `ExecutionContext._new_path(monitored)`:
`monitored.name if self._entry.source == "" else f"{self._entry.source}/{monitored.name}"`. -/
def ExecutionContext.new_path (ctx : ExecutionContext) (monitored : Monitored) : String :=
  if ctx.entry.source = "" then monitored.name
  else ctx.entry.source ++ "/" ++ monitored.name

/-- `ExecutionContext.new_for(monitored)`:
`ExecutionContext(self._executionLog, self._new_path(monitored))`. -/
def ExecutionContext.new_for (ctx : ExecutionContext) (monitored : Monitored) :
    ExecutionContext :=
  ExecutionContext.create ctx.log (ctx.new_path monitored)

/-! ## LLM controller -/

/-- `ChainBase` metadata consumed by the controller: a stable unique name, a description,
and the "supports seeded instructions" flag. -/
structure ChainBase where
  name : String
  description : String
  isSupportingInstr : Bool
deriving DecidableEq, Repr

/-- `Specialist` record from `llm_controller.py`: name, integer score, instructions,
justification, as decoded from one model response line. -/
structure Specialist where
  name : String
  score : Int
  instrText : String
  justText : String
deriving DecidableEq, Repr

/-- One line of a model response, as seen by `LLMController._parse_line`.
The field-separator membership test is the source's; the decoding of the line into a
`Specialist` (`LLMAnswer.to_object`, whose module is not under `src/`) is modelled from
the spec as an oracle field: `decoded = some cs` when the line decodes to `cs`, `none`
when decoding yields no candidate. -/
structure RespLine where
  hasSep : Bool
  decoded : Option Specialist
deriving DecidableEq, Repr

/-- A model response: its raw text (used in corrective follow-up messages) and its
lines. Modelled from the spec: `response.strip().splitlines()` is embedded as the
`lines` field of the oracle response. -/
structure LLMResponse where
  text : String
  lines : List RespLine
deriving DecidableEq, Repr

/-- Roles of the messages sent to the model (`LLMMessage`). -/
inductive LLMRole where
  | system
  | user
  | assistant
deriving DecidableEq, Repr

/-- An `LLMMessage`: role plus content. -/
structure LLMMessage where
  role : LLMRole
  content : String
deriving DecidableEq, Repr

/-- The two exception kinds that can escape `_parse_response`: `LLMParsingException`
(from `llm_answer.py`) and `ControllerException` (from `controller_base.py`); both are
Python `Exception` subclasses, each carrying its message. -/
inductive CtrlError where
  | parsing (msg : String)
  | controller (msg : String)
deriving DecidableEq, Repr

/-- Python `f"{e.__class__.__name__}: `{e}`"` for the two embedded exception kinds. -/
def CtrlError.render : CtrlError → String
  | CtrlError.parsing m => "LLMParsingException: `" ++ m ++ "`"
  | CtrlError.controller m => "ControllerException: `" ++ m ++ "`"

/-- The controller state set up by `LLMController.__init__`: the candidate chains,
`response_threshold` (Python float, embedded as `ℚ`) and the effective `_top_k`. -/
structure LLMController where
  chains : List ChainBase
  responseThreshold : ℚ
  topK : Nat

/-- `LLMController.__init__`: `_top_k` is `len(chains)` when `top_k` is `None`,
else `min(top_k, len(chains))`. -/
def LLMController.init (chains : List ChainBase) (responseThreshold : ℚ)
    (topK : Option Nat) : LLMController :=
  ⟨chains, responseThreshold,
    match topK with
    | none => chains.length
    | some k => min k chains.length⟩

/-- `ControllerBase.default_execution_unit_rank`.
Modelled from the spec: "a single default rank" shared by the whole plan
(`controller_base.py` is not under `src/`). -/
def defaultExecutionUnitRank : Int := 0

/-- `ExecutionUnit` as constructed by `LLMController._build_execution_unit`: target
chain, optional seed message, display name `f"{chain.name};{score}"`, and rank.
The budget slice is not part of any claim and is omitted. -/
structure ExecutionUnit where
  chain : ChainBase
  initialState : Option ChatMessage
  name : String
  rank : Int
deriving DecidableEq, Repr

/-- `LLMController._build_execution_unit`. -/
def LLMController.buildExecutionUnit (chain : ChainBase) (instrText : String)
    (score : Int) : ExecutionUnit :=
  ⟨chain,
    if chain.isSupportingInstr then some (ChatMessage.chain instrText none "" false) else none,
    chain.name ++ ";" ++ toString score,
    defaultExecutionUnitRank⟩

/-- Python `str.casefold()` as applied to chain and specialist names, embedded as
per-character ASCII lowercasing (it coincides with `casefold` on ASCII names). -/
def strCasefold (s : String) : String := String.mk (s.data.map Char.toLower)

/-- `LLMController._parse_line`: skip a line without the field separator; decode it;
resolve the decoded name against the chains case-insensitively (first match of
`next(filter(...))`); an unresolved name raises `ControllerException`. -/
def LLMController.parseLine (ctrl : LLMController) (line : RespLine) :
    Except CtrlError (Option (ExecutionUnit × Int)) :=
  if line.hasSep = false then Except.ok none
  else
    match line.decoded with
    | none => Except.ok none
    | some cs =>
      match ctrl.chains.find? (fun c => strCasefold c.name = strCasefold cs.name) with
      | some chain =>
        Except.ok (some (LLMController.buildExecutionUnit chain cs.instrText cs.score, cs.score))
      | none =>
        Except.error (CtrlError.controller ("The Specialist `" ++ cs.name ++ "` does not exist."))

/-- The list comprehension `[self._parse_line(context, line) for line in ...]`:
left-to-right, propagating the first raised exception. -/
def LLMController.parseLines (ctrl : LLMController) :
    List RespLine → Except CtrlError (List (Option (ExecutionUnit × Int)))
  | [] => Except.ok []
  | l :: ls =>
    match ctrl.parseLine l with
    | Except.error e => Except.error e
    | Except.ok r =>
      match ctrl.parseLines ls with
      | Except.error e => Except.error e
      | Except.ok rs => Except.ok (r :: rs)

/-- Python `repr` of a list of strings, as interpolated by
`f"Missing scores for {missing_chains}. ..."`. -/
def pyListRepr (names : List String) : String :=
  "[" ++ String.intercalate ", " (names.map (fun n => "\x27" ++ n ++ "\x27")) ++ "]"

/-- The local `actual_chains` of `_parse_response`:
`[item[0].chain.name for item in filtered]`. -/
def LLMController.actualNames (filtered : List (ExecutionUnit × Int)) : List String :=
  filtered.map (fun item => item.1.chain.name)

/-- The local `missing_chains` of `_parse_response`:
`[chain.name for chain in self._chains if chain.name not in actual_chains]`. -/
def LLMController.missingNames (ctrl : LLMController)
    (filtered : List (ExecutionUnit × Int)) : List String :=
  (ctrl.chains.filter
      (fun c => !(decide (c.name ∈ LLMController.actualNames filtered)))).map
    (fun c => c.name)

/-- The validation tail of `LLMController._parse_response`, operating on the filtered
candidate list: raise `LLMParsingException` when none parsed, raise
`ControllerException` when `top_k > 1` and a chain is missing from the parsed
candidates, raise `ControllerException` when `top_k == 1` and more than one candidate
parsed, otherwise return the list. -/
def LLMController.parseChecks (ctrl : LLMController)
    (filtered : List (ExecutionUnit × Int)) : Except CtrlError (List (ExecutionUnit × Int)) :=
  if filtered.length = 0 then
    Except.error (CtrlError.parsing
      "None of your scores could be parsed. Follow exactly formatting instructions.")
  else if 1 < ctrl.topK ∧ 0 < (ctrl.missingNames filtered).length then
    Except.error (CtrlError.controller
      ("Missing scores for " ++ pyListRepr (ctrl.missingNames filtered)
        ++ ". Follow exactly your instructions."))
  else if filtered.length ≠ 1 ∧ ctrl.topK = 1 then
    Except.error (CtrlError.controller
      "You scored multiple Specialists. Score ONLY only the most relevant specialist.")
  else Except.ok filtered

/-- `LLMController._parse_response`: parse every line, keep the `some` results
(`filtered = [r.unwrap() for r in parsed if r.is_some()]`), then run the checks. -/
def LLMController.parseResponse (ctrl : LLMController) (lines : List RespLine) :
    Except CtrlError (List (ExecutionUnit × Int)) :=
  match ctrl.parseLines lines with
  | Except.error e => Except.error e
  | Except.ok parsed => ctrl.parseChecks (parsed.filterMap id)

/-- Insertion step of the stable descending sort performed by
`plan.sort(key=lambda item: item[1], reverse=True)`: `x` goes before the first element
whose score is not above `x`'s, so equal scores keep their original relative order. -/
def sortDescInsert (x : ExecutionUnit × Int) :
    List (ExecutionUnit × Int) → List (ExecutionUnit × Int)
  | [] => [x]
  | y :: ys => if y.2 ≤ x.2 then x :: y :: ys else y :: sortDescInsert x ys

/-- Stable sort by descending score (Python's `list.sort` with `reverse=True` is the
unique stable descending sort, which insertion sort realises). -/
def sortDesc : List (ExecutionUnit × Int) → List (ExecutionUnit × Int)
  | [] => []
  | x :: xs => sortDescInsert x (sortDesc xs)

/-- The success path of `_execute`: sort descending by score, keep items with
`item[1] >= self._response_threshold`, project the execution units, truncate to
`self._top_k`. -/
def LLMController.planOf (ctrl : LLMController) (filtered : List (ExecutionUnit × Int)) :
    List ExecutionUnit :=
  (((sortDesc filtered).filter
      (fun it => decide (ctrl.responseThreshold ≤ (it.2 : ℚ)))).map Prod.fst).take ctrl.topK

/-- The scored plan before projecting away scores; `planOf` is its image under `fst`. -/
def LLMController.scoredPlanOf (ctrl : LLMController)
    (filtered : List (ExecutionUnit × Int)) : List (ExecutionUnit × Int) :=
  ((sortDesc filtered).filter
      (fun it => decide (ctrl.responseThreshold ≤ (it.2 : ℚ)))).take ctrl.topK

/-- The assistant message chosen by `_execute`'s two except branches:
`LLMParsingException` gets "not correctly formatted", any other exception
(in particular `ControllerException`) gets "raised an exception". -/
def assistantText (e : CtrlError) (responseText : String) : String :=
  match e with
  | CtrlError.parsing _ => "Your response is not correctly formatted:\n" ++ responseText
  | CtrlError.controller _ => "Your response raised an exception:\n" ++ responseText

/-- `LLMController._handle_error`: the corrective follow-up pair of messages. -/
def handleError (e : CtrlError) (assistantMessage : String) : List LLMMessage :=
  [⟨LLMRole.assistant, assistantMessage⟩,
   ⟨LLMRole.user, "Fix:\n" ++ e.render⟩]

/-- Outcome of `_execute`: a returned plan, or the
`ControllerException("LLMController failed to execute.")` raised after the loop. -/
inductive ExecOutcome where
  | plan : List ExecutionUnit → ExecOutcome
  | exhausted : ExecOutcome
deriving DecidableEq, Repr

/-- The retry loop of `LLMController._execute`, with the model abstracted as a function
`respond` from the sent messages to a response. State: remaining retries, the base
message list, the pending corrective messages, and the number of model calls made so
far; returns the outcome and the total number of model calls. -/
def LLMController.executeFrom (ctrl : LLMController)
    (respond : List LLMMessage → LLMResponse) :
    Nat → List LLMMessage → List LLMMessage → Nat → ExecOutcome × Nat
  | 0, _, _, calls => (ExecOutcome.exhausted, calls)
  | retry + 1, msgs, newMsgs, calls =>
    let messages := msgs ++ newMsgs
    let resp := respond messages
    match ctrl.parseResponse resp.lines with
    | Except.ok filtered => (ExecOutcome.plan (ctrl.planOf filtered), calls + 1)
    | Except.error e =>
      ctrl.executeFrom respond retry messages
        (handleError e (assistantText e resp.text)) (calls + 1)

/-- `try_last_user_message` on the chat history.
Modelled from the spec: `_chat_history.py` is not under `src/`; the spec reads
"the latest user-authored message from History", "returns none if absent". -/
def tryLastUserMessage (history : List ChatMessage) : Option ChatMessage :=
  history.reverse.find? (fun m => m.is_kind_user)

/-- `LLMController._build_llm_messages`: the stored system message, then — only when
the history holds a user-authored message — the scoring user instruction. -/
def buildLLMMessages (systemMessage : String) (history : List ChatMessage) :
    List LLMMessage :=
  let base := [LLMMessage.mk LLMRole.system systemMessage]
  match tryLastUserMessage history with
  | some m =>
    base ++ [LLMMessage.mk LLMRole.user ("Score Specialists for:\n `" ++ m.message ++ "`")]
  | none => base

/-- `LLMController._execute`: build the messages, then run the retry loop with
`retry = self._retry = 3` and no pending corrective messages. -/
def LLMController.execute (ctrl : LLMController) (systemMessage : String)
    (history : List ChatMessage) (respond : List LLMMessage → LLMResponse) :
    ExecOutcome × Nat :=
  ctrl.executeFrom respond 3 (buildLLMMessages systemMessage history) [] 0

/-- The candidates decoded from a response: lines with the separator whose decoding
succeeded (the "resulting candidate set" of the parse step). -/
def decodedCandidates (lines : List RespLine) : List Specialist :=
  lines.filterMap (fun l => if l.hasSep then l.decoded else none)

/-! ## Path-joining consequence of `new_for` -/

/-- The spec's "concatenation of ancestor names joined by a slash". -/
def joinPath : List String → String
  | [] => ""
  | [n] => n
  | n :: m :: rest => n ++ "/" ++ joinPath (m :: rest)

/-- The execution context obtained from a fresh root (empty path) by monitoring the
named components in order, each via `new_for`. -/
def contextFromRoot (names : List String) : ExecutionContext :=
  names.foldl (fun ctx n => ctx.new_for ⟨n⟩) (ExecutionContext.create ⟨[]⟩ "")

/-! ## Concrete fixtures used by witnesses and counterexamples -/

/-- Candidate chain `A`. -/
def chA : ChainBase := ⟨"A", "dA", false⟩

/-- Candidate chain `B`. -/
def chB : ChainBase := ⟨"B", "dB", false⟩

/-- Candidate chain `C`. -/
def chC : ChainBase := ⟨"C", "dC", false⟩

/-- A well-formed response line scoring the named specialist. -/
def mkLine (n : String) (s : Int) : RespLine := ⟨true, some ⟨n, s, "", "j"⟩⟩

/-- A history holding one user message. -/
def histU : List ChatMessage := [ChatMessage.user "hi" none "" false]

/-- Controller over the single chain `A`, threshold `0`, `top_k` defaulted. -/
def cfgC1 : LLMController := LLMController.init [chA] 0 none

/-- A model stub that always references the nonexistent specialist `B`. -/
def respondC1 : List LLMMessage → LLMResponse := fun _ => ⟨"B;5", [mkLine "B" 5]⟩

/-- Controller over chain `A` with `response_threshold = 5` and `top_k = 1`. -/
def cfgC2a : LLMController := LLMController.init [chA] 5 (some 1)

/-- A model stub returning the single valid line `A;3` (score below threshold `5`). -/
def respondC2a : List LLMMessage → LLMResponse := fun _ => ⟨"A;3", [mkLine "A" 3]⟩

/-- Controller over chains `A`, `B` with `top_k = 1`. -/
def cfgC2b : LLMController := LLMController.init [chA, chB] 0 (some 1)

/-- A model stub returning two scored lines in one response. -/
def respondC2b : List LLMMessage → LLMResponse :=
  fun _ => ⟨"A;8\nB;9", [mkLine "A" 8, mkLine "B" 9]⟩

/-- A model stub that always returns the same malformed text (no separator). -/
def respondC3 : List LLMMessage → LLMResponse := fun _ => ⟨"garbage", [⟨false, none⟩]⟩

/-- Controller over chains `A`, `B`, `C` with `response_threshold = 5`, `top_k = 2`. -/
def cfgC4 : LLMController := LLMController.init [chA, chB, chC] 5 (some 2)

/-- A model stub covering all chains: `A;8`, `B;3`, `C;9`. -/
def respondC4 : List LLMMessage → LLMResponse :=
  fun _ => ⟨"A;8\nB;3\nC;9", [mkLine "A" 8, mkLine "B" 3, mkLine "C" 9]⟩

/-- A model stub returning the single valid line `A;7`. -/
def respondC5 : List LLMMessage → LLMResponse := fun _ => ⟨"A;7", [mkLine "A" 7]⟩

/-- Controller over chains `A`, `B` with `top_k = 2`. -/
def cfgC6 : LLMController := LLMController.init [chA, chB] 0 (some 2)

/-- A model stub that under-reports: only `A;5`, never scoring `B`. -/
def respondC6 : List LLMMessage → LLMResponse := fun _ => ⟨"A;5", [mkLine "A" 5]⟩

/-- Response lines mixing a separator-free line with one valid candidate line. -/
def linesC7 : List RespLine := [⟨false, none⟩, mkLine "A" 4]

/-- Controller over chain `A` with threshold `0` and `top_k = 1`. -/
def cfgC2c : LLMController := LLMController.init [chA] 0 (some 1)

/-! ## General lemmas about the embedded controller -/

theorem parseLine_of_noSep (ctrl : LLMController) (line : RespLine)
    (h : line.hasSep = false) : ctrl.parseLine line = Except.ok none := by
  simp [LLMController.parseLine, h]

theorem parseLine_error_controller (ctrl : LLMController) (line : RespLine)
    (e : CtrlError) (h : ctrl.parseLine line = Except.error e) :
    ∃ m, e = CtrlError.controller m := by
  unfold LLMController.parseLine at h
  split at h
  · cases h
  · split at h
    · cases h
    · split at h
      · cases h
      · cases h
        exact ⟨_, rfl⟩

theorem parseLines_ok_mem (ctrl : LLMController) :
    ∀ (ls : List RespLine) (rs : List (Option (ExecutionUnit × Int))),
      ctrl.parseLines ls = Except.ok rs →
      ∀ l ∈ ls, ∃ r, ctrl.parseLine l = Except.ok r ∧ r ∈ rs := by
  intro ls
  induction ls with
  | nil => intro rs _ l hl; cases hl
  | cons a as ih =>
    intro rs hok l hl
    unfold LLMController.parseLines at hok
    cases ha : ctrl.parseLine a with
    | error e => rw [ha] at hok; cases hok
    | ok r =>
      rw [ha] at hok
      cases has : ctrl.parseLines as with
      | error e => rw [has] at hok; cases hok
      | ok rs' =>
        rw [has] at hok
        cases hok
        rcases List.mem_cons.mp hl with hl | hl
        · exact ⟨r, by rw [hl]; exact ha, List.mem_cons_self _ _⟩
        · obtain ⟨r', hr', hmem⟩ := ih rs' has l hl
          exact ⟨r', hr', List.mem_cons_of_mem _ hmem⟩

theorem parseLines_error_mem (ctrl : LLMController) :
    ∀ (ls : List RespLine) (e : CtrlError), ctrl.parseLines ls = Except.error e →
      ∃ l ∈ ls, ctrl.parseLine l = Except.error e := by
  intro ls
  induction ls with
  | nil => intro e h; cases h
  | cons a as ih =>
    intro e h
    unfold LLMController.parseLines at h
    cases ha : ctrl.parseLine a with
    | error e' =>
      rw [ha] at h; cases h
      exact ⟨a, List.mem_cons_self _ _, ha⟩
    | ok r =>
      rw [ha] at h
      cases has : ctrl.parseLines as with
      | error e' =>
        rw [has] at h; cases h
        obtain ⟨l, hl, hpl⟩ := ih _ has
        exact ⟨l, List.mem_cons_of_mem _ hl, hpl⟩
      | ok rs' => rw [has] at h; cases h

theorem executeFrom_error_step (ctrl : LLMController)
    (respond : List LLMMessage → LLMResponse) (r : Nat) (msgs nm : List LLMMessage)
    (calls : Nat) (e : CtrlError)
    (h : ctrl.parseResponse (respond (msgs ++ nm)).lines = Except.error e) :
    ctrl.executeFrom respond (r + 1) msgs nm calls
      = ctrl.executeFrom respond r (msgs ++ nm)
          (handleError e (assistantText e (respond (msgs ++ nm)).text)) (calls + 1) := by
  simp only [LLMController.executeFrom]
  rw [h]

theorem executeFrom_ok_step (ctrl : LLMController)
    (respond : List LLMMessage → LLMResponse) (r : Nat) (msgs nm : List LLMMessage)
    (calls : Nat) (filtered : List (ExecutionUnit × Int))
    (h : ctrl.parseResponse (respond (msgs ++ nm)).lines = Except.ok filtered) :
    ctrl.executeFrom respond (r + 1) msgs nm calls
      = (ExecOutcome.plan (ctrl.planOf filtered), calls + 1) := by
  simp only [LLMController.executeFrom]
  rw [h]

theorem executeFrom_plan_inv (ctrl : LLMController)
    (respond : List LLMMessage → LLMResponse) :
    ∀ (r : Nat) (msgs nm : List LLMMessage) (calls : Nat) (p : List ExecutionUnit) (c : Nat),
      ctrl.executeFrom respond r msgs nm calls = (ExecOutcome.plan p, c) →
      ∃ ms filtered, ctrl.parseResponse (respond ms).lines = Except.ok filtered ∧
        p = ctrl.planOf filtered := by
  intro r
  induction r with
  | zero =>
    intro msgs nm calls p c h
    simp only [LLMController.executeFrom, Prod.mk.injEq] at h
    exact ExecOutcome.noConfusion h.1
  | succ r ih =>
    intro msgs nm calls p c h
    cases hp : ctrl.parseResponse (respond (msgs ++ nm)).lines with
    | ok f =>
      rw [executeFrom_ok_step ctrl respond r msgs nm calls f hp] at h
      rw [Prod.mk.injEq] at h
      injection h.1 with h2
      exact ⟨msgs ++ nm, f, hp, h2.symm⟩
    | error e =>
      rw [executeFrom_error_step ctrl respond r msgs nm calls e hp] at h
      exact ih _ _ _ _ _ h

theorem executeFrom_allfail (ctrl : LLMController)
    (respond : List LLMMessage → LLMResponse)
    (hfail : ∀ ms, ∃ e, ctrl.parseResponse (respond ms).lines = Except.error e) :
    ∀ (r : Nat) (msgs nm : List LLMMessage) (calls : Nat),
      ctrl.executeFrom respond r msgs nm calls = (ExecOutcome.exhausted, calls + r) := by
  intro r
  induction r with
  | zero => intro msgs nm calls; simp [LLMController.executeFrom]
  | succ r ih =>
    intro msgs nm calls
    obtain ⟨e, he⟩ := hfail (msgs ++ nm)
    rw [executeFrom_error_step ctrl respond r msgs nm calls e he, ih]
    have : calls + 1 + r = calls + (r + 1) := by omega
    rw [this]

theorem executeFrom_calls_le (ctrl : LLMController)
    (respond : List LLMMessage → LLMResponse) :
    ∀ (r : Nat) (msgs nm : List LLMMessage) (calls : Nat),
      calls ≤ (ctrl.executeFrom respond r msgs nm calls).2 := by
  intro r
  induction r with
  | zero => intro msgs nm calls; simp [LLMController.executeFrom]
  | succ r ih =>
    intro msgs nm calls
    cases hp : ctrl.parseResponse (respond (msgs ++ nm)).lines with
    | ok f => rw [executeFrom_ok_step ctrl respond r msgs nm calls f hp]; omega
    | error e =>
      rw [executeFrom_error_step ctrl respond r msgs nm calls e hp]
      exact Nat.le_trans (Nat.le_succ calls) (ih _ _ _)

theorem executeFrom_calls_pos (ctrl : LLMController)
    (respond : List LLMMessage → LLMResponse) (r : Nat) (msgs nm : List LLMMessage)
    (calls : Nat) :
    calls + 1 ≤ (ctrl.executeFrom respond (r + 1) msgs nm calls).2 := by
  cases hp : ctrl.parseResponse (respond (msgs ++ nm)).lines with
  | ok f => rw [executeFrom_ok_step ctrl respond r msgs nm calls f hp]
  | error e =>
    rw [executeFrom_error_step ctrl respond r msgs nm calls e hp]
    exact executeFrom_calls_le ctrl respond r _ _ _

/-! ## Lemmas about the validation checks -/

theorem parseChecks_ok_length_one (ctrl : LLMController)
    (f f' : List (ExecutionUnit × Int)) (htk : ctrl.topK = 1)
    (h : ctrl.parseChecks f = Except.ok f') : f.length = 1 := by
  unfold LLMController.parseChecks at h
  by_cases h0 : f.length = 0
  · rw [if_pos h0] at h; cases h
  · rw [if_neg h0] at h
    by_cases hm : 1 < ctrl.topK ∧ 0 < (ctrl.missingNames f).length
    · rw [if_pos hm] at h; cases h
    · rw [if_neg hm] at h
      by_cases hb : f.length ≠ 1 ∧ ctrl.topK = 1
      · rw [if_pos hb] at h; cases h
      · by_cases hl : f.length = 1
        · exact hl
        · exact absurd ⟨hl, htk⟩ hb

theorem parseChecks_ok_coverage (ctrl : LLMController)
    (f f' : List (ExecutionUnit × Int)) (ch : ChainBase) (htk : 1 < ctrl.topK)
    (h : ctrl.parseChecks f = Except.ok f') (hch : ch ∈ ctrl.chains) :
    ch.name ∈ LLMController.actualNames f := by
  unfold LLMController.parseChecks at h
  by_cases h0 : f.length = 0
  · rw [if_pos h0] at h; cases h
  · rw [if_neg h0] at h
    by_cases hm : 1 < ctrl.topK ∧ 0 < (ctrl.missingNames f).length
    · rw [if_pos hm] at h; cases h
    · have hlen0 : (ctrl.missingNames f).length = 0 := by
        rcases Nat.eq_zero_or_pos (ctrl.missingNames f).length with h' | h'
        · exact h'
        · exact absurd ⟨htk, h'⟩ hm
      have hnil : ctrl.chains.filter
          (fun c => !(decide (c.name ∈ LLMController.actualNames f))) = [] := by
        apply List.length_eq_zero.mp
        have := hlen0
        rwa [LLMController.missingNames, List.length_map] at this
      have hc := List.filter_eq_nil_iff.mp hnil ch hch
      by_contra hn
      simp [hn] at hc

/-! ## Lemmas about the stable descending sort -/

theorem mem_sortDescInsert (x z : ExecutionUnit × Int) :
    ∀ l : List (ExecutionUnit × Int), z ∈ sortDescInsert x l ↔ z = x ∨ z ∈ l := by
  intro l
  induction l with
  | nil => simp [sortDescInsert]
  | cons y ys ih =>
    by_cases hc : y.2 ≤ x.2
    · simp [sortDescInsert, hc]
    · simp only [sortDescInsert, if_neg hc, List.mem_cons, ih]
      tauto

theorem sortDescInsert_pairwise (x : ExecutionUnit × Int)
    (l : List (ExecutionUnit × Int)) (h : List.Pairwise (fun a b => b.2 ≤ a.2) l) :
    List.Pairwise (fun a b => b.2 ≤ a.2) (sortDescInsert x l) := by
  induction l with
  | nil => simp [sortDescInsert]
  | cons y ys ih =>
    rw [List.pairwise_cons] at h
    obtain ⟨hy, hys⟩ := h
    by_cases hc : y.2 ≤ x.2
    · rw [sortDescInsert, if_pos hc, List.pairwise_cons]
      constructor
      · intro z hz
        rcases List.mem_cons.mp hz with hz | hz
        · rw [hz]; exact hc
        · exact le_trans (hy z hz) hc
      · rw [List.pairwise_cons]; exact ⟨hy, hys⟩
    · rw [sortDescInsert, if_neg hc, List.pairwise_cons]
      constructor
      · intro z hz
        rcases (mem_sortDescInsert x z ys).mp hz with hz | hz
        · rw [hz]; exact le_of_lt (lt_of_not_le hc)
        · exact hy z hz
      · exact ih hys

theorem sortDesc_pairwise (l : List (ExecutionUnit × Int)) :
    List.Pairwise (fun a b => b.2 ≤ a.2) (sortDesc l) := by
  induction l with
  | nil => exact List.Pairwise.nil
  | cons x xs ih => exact sortDescInsert_pairwise x (sortDesc xs) ih

theorem sortDescInsert_filter_key (x : ExecutionUnit × Int) (s : Int) :
    ∀ l : List (ExecutionUnit × Int),
      (sortDescInsert x l).filter (fun it => decide (it.2 = s))
        = if x.2 = s then x :: l.filter (fun it => decide (it.2 = s))
          else l.filter (fun it => decide (it.2 = s)) := by
  intro l
  induction l with
  | nil => by_cases h : x.2 = s <;> simp [sortDescInsert, h]
  | cons y ys ih =>
    by_cases hc : y.2 ≤ x.2
    · rw [sortDescInsert, if_pos hc]
      by_cases hx : x.2 = s <;> simp [List.filter_cons, hx]
    · rw [sortDescInsert, if_neg hc]
      by_cases hx : x.2 = s
      · have hy : ¬ y.2 = s := by
          intro hy
          exact hc (le_of_eq (hy.trans hx.symm))
        simp [List.filter_cons, hx, hy, ih]
      · by_cases hy : y.2 = s <;> simp [List.filter_cons, hx, hy, ih]

theorem sortDesc_filter_key (s : Int) :
    ∀ l : List (ExecutionUnit × Int),
      (sortDesc l).filter (fun it => decide (it.2 = s))
        = l.filter (fun it => decide (it.2 = s)) := by
  intro l
  induction l with
  | nil => rfl
  | cons x xs ih =>
    rw [sortDesc, sortDescInsert_filter_key]
    by_cases h : x.2 = s <;> simp [List.filter_cons, h, ih]

theorem planOf_eq_map (ctrl : LLMController) (f : List (ExecutionUnit × Int)) :
    ctrl.planOf f = (ctrl.scoredPlanOf f).map Prod.fst := by
  rw [LLMController.planOf, LLMController.scoredPlanOf, List.map_take]

theorem scoredPlanOf_pairwise (ctrl : LLMController) (f : List (ExecutionUnit × Int)) :
    List.Pairwise (fun a b => b.2 ≤ a.2) (ctrl.scoredPlanOf f) := by
  rw [LLMController.scoredPlanOf]
  exact ((sortDesc_pairwise f).filter _).sublist (List.take_sublist _ _)

theorem scoredPlanOf_threshold (ctrl : LLMController) (f : List (ExecutionUnit × Int))
    (it : ExecutionUnit × Int) (h : it ∈ ctrl.scoredPlanOf f) :
    ctrl.responseThreshold ≤ (it.2 : ℚ) := by
  rw [LLMController.scoredPlanOf] at h
  have := List.take_subset _ _ h
  have := List.mem_filter.mp this
  exact of_decide_eq_true this.2

theorem scoredPlanOf_length (ctrl : LLMController) (f : List (ExecutionUnit × Int)) :
    (ctrl.scoredPlanOf f).length ≤ ctrl.topK := by
  rw [LLMController.scoredPlanOf]
  exact List.length_take_le _ _

/-! ## Lemmas about line skipping and the empty-candidate check -/

theorem except_map_eq_error {α β γ : Type} (f : β → γ) (x : Except α β) (e : α)
    (h : Except.map f x = Except.error e) : x = Except.error e := by
  cases x with
  | error e' => cases h; rfl
  | ok b => cases h

theorem except_map_eq_ok {α β γ : Type} (f : β → γ) (x : Except α β) (c : γ)
    (h : Except.map f x = Except.ok c) : ∃ b, x = Except.ok b ∧ f b = c := by
  cases x with
  | error e' => cases h
  | ok b => refine ⟨b, rfl, ?_⟩; injection h with h2

theorem parseLines_cons (ctrl : LLMController) (a : RespLine) (as : List RespLine) :
    ctrl.parseLines (a :: as)
      = match ctrl.parseLine a with
        | Except.error e => Except.error e
        | Except.ok r =>
          match ctrl.parseLines as with
          | Except.error e => Except.error e
          | Except.ok rs => Except.ok (r :: rs) := rfl

theorem parseLines_sep_filter (ctrl : LLMController) :
    ∀ ls : List RespLine,
      Except.map (List.filterMap id) (ctrl.parseLines ls)
        = Except.map (List.filterMap id)
            (ctrl.parseLines (ls.filter (fun l => l.hasSep))) := by
  intro ls
  induction ls with
  | nil => rfl
  | cons a as ih =>
    by_cases ha : a.hasSep = true
    · rw [List.filter_cons_of_pos ha, parseLines_cons, parseLines_cons]
      cases hpa : ctrl.parseLine a with
      | error e => rfl
      | ok r =>
        cases h1 : ctrl.parseLines as with
        | error e =>
          have h2 : ctrl.parseLines (as.filter (fun l => l.hasSep)) = Except.error e :=
            except_map_eq_error _ _ _ (by rw [← ih, h1]; rfl)
          simp only [h2]
        | ok rs =>
          obtain ⟨rs', h2, hfm⟩ :=
            except_map_eq_ok (List.filterMap id)
              (ctrl.parseLines (as.filter (fun l => l.hasSep))) (rs.filterMap id)
              (by rw [← ih, h1]; rfl)
          simp only [h2]
          show Except.ok ((r :: rs).filterMap id) = Except.ok ((r :: rs').filterMap id)
          cases r <;> simp [List.filterMap_cons, hfm]
    · have ha' : a.hasSep = false := by simpa using ha
      rw [List.filter_cons_of_neg (by simpa using ha)]
      rw [parseLines_cons, parseLine_of_noSep ctrl a ha', ← ih]
      cases h1 : ctrl.parseLines as with
      | error e => rfl
      | ok rs =>
        show Except.ok ((none :: rs).filterMap id) = _
        simp [List.filterMap_cons, Except.map]

theorem parseResponse_sep_filter (ctrl : LLMController) (ls : List RespLine) :
    ctrl.parseResponse ls = ctrl.parseResponse (ls.filter (fun l => l.hasSep)) := by
  have h := parseLines_sep_filter ctrl ls
  rw [LLMController.parseResponse, LLMController.parseResponse]
  cases h1 : ctrl.parseLines ls with
  | error e =>
    rw [h1] at h
    have h2 : ctrl.parseLines (ls.filter (fun l => l.hasSep)) = Except.error e :=
      except_map_eq_error _ _ _ (by rw [← h]; rfl)
    simp only [h2]
  | ok rs =>
    rw [h1] at h
    obtain ⟨rs', h2, hfm⟩ :=
      except_map_eq_ok (List.filterMap id)
        (ctrl.parseLines (ls.filter (fun l => l.hasSep))) (rs.filterMap id)
        (by rw [← h]; rfl)
    simp only [h2, hfm]

theorem parseChecks_parsing_iff (ctrl : LLMController) (f : List (ExecutionUnit × Int)) :
    (∃ m, ctrl.parseChecks f = Except.error (CtrlError.parsing m)) ↔ f.length = 0 := by
  unfold LLMController.parseChecks
  by_cases h0 : f.length = 0
  · rw [if_pos h0]
    exact iff_of_true ⟨_, rfl⟩ h0
  · rw [if_neg h0]
    apply iff_of_false _ h0
    rintro ⟨m, hm⟩
    by_cases hm1 : 1 < ctrl.topK ∧ 0 < (ctrl.missingNames f).length
    · rw [if_pos hm1] at hm; cases hm
    · rw [if_neg hm1] at hm
      by_cases hm2 : f.length ≠ 1 ∧ ctrl.topK = 1
      · rw [if_pos hm2] at hm; cases hm
      · rw [if_neg hm2] at hm; cases hm

theorem parseLine_ok_some (ctrl : LLMController) (l : RespLine) (cs : Specialist)
    (r : Option (ExecutionUnit × Int)) (hsep : l.hasSep = true)
    (hdec : l.decoded = some cs) (h : ctrl.parseLine l = Except.ok r) :
    ∃ pr, r = some pr := by
  unfold LLMController.parseLine at h
  simp only [hsep, hdec] at h
  cases hf : ctrl.chains.find? (fun c => strCasefold c.name = strCasefold cs.name) with
  | some chain =>
    rw [hf] at h
    injection h with h2
    exact ⟨_, h2.symm⟩
  | none => rw [hf] at h; cases h

theorem decodedCandidates_nil_parseLines (ctrl : LLMController) :
    ∀ ls : List RespLine, decodedCandidates ls = [] →
      ∃ rs, ctrl.parseLines ls = Except.ok rs ∧ rs.filterMap id = [] := by
  intro ls
  induction ls with
  | nil => intro _; exact ⟨[], rfl, rfl⟩
  | cons a as ih =>
    intro h
    rw [decodedCandidates] at h
    have hall := List.filterMap_eq_nil_iff.mp h
    have hdc : decodedCandidates as = [] := by
      rw [decodedCandidates]
      exact List.filterMap_eq_nil_iff.mpr
        (fun l hl => hall l (List.mem_cons_of_mem _ hl))
    obtain ⟨rs, hok, hfm⟩ := ih hdc
    have hha := hall a (List.mem_cons_self _ _)
    have hpa : ctrl.parseLine a = Except.ok none := by
      by_cases hsep : a.hasSep = true
      · have hd : a.decoded = none := by simpa [hsep] using hha
        unfold LLMController.parseLine
        simp [hsep, hd]
      · exact parseLine_of_noSep ctrl a (by simpa using hsep)
    refine ⟨none :: rs, ?_, by simpa [List.filterMap_cons] using hfm⟩
    rw [parseLines_cons, hpa, hok]

theorem parseResponse_parsing_iff (ctrl : LLMController) (ls : List RespLine) :
    (∃ m, ctrl.parseResponse ls = Except.error (CtrlError.parsing m))
      ↔ decodedCandidates ls = [] := by
  constructor
  · rintro ⟨m, h⟩
    rw [LLMController.parseResponse] at h
    cases h1 : ctrl.parseLines ls with
    | error e =>
      rw [h1] at h
      cases h
      obtain ⟨l, _, hpl⟩ := parseLines_error_mem ctrl ls _ h1
      obtain ⟨m', hm'⟩ := parseLine_error_controller ctrl l _ hpl
      cases hm'
    | ok parsed =>
      rw [h1] at h
      have hlen := (parseChecks_parsing_iff ctrl (parsed.filterMap id)).mp ⟨m, h⟩
      have hnil : parsed.filterMap id = [] := List.length_eq_zero.mp hlen
      rw [decodedCandidates]
      apply List.filterMap_eq_nil_iff.mpr
      intro l hl
      by_cases hsep : l.hasSep = true
      · cases hd : l.decoded with
        | none => simp [hsep, hd]
        | some cs =>
          exfalso
          obtain ⟨r, hr, hmem⟩ := parseLines_ok_mem ctrl ls parsed h1 l hl
          obtain ⟨pr, hpr⟩ := parseLine_ok_some ctrl l cs r hsep hd hr
          have hprm : pr ∈ parsed.filterMap id := by
            rw [List.mem_filterMap]
            exact ⟨r, hmem, by rw [hpr]; rfl⟩
          rw [hnil] at hprm
          cases hprm
      · have hsep' : l.hasSep = false := by simpa using hsep
        simp [hsep']
  · intro h
    obtain ⟨rs, hok, hfm⟩ := decodedCandidates_nil_parseLines ctrl ls h
    refine ⟨"None of your scores could be parsed. Follow exactly formatting instructions.", ?_⟩
    rw [LLMController.parseResponse, hok]
    show ctrl.parseChecks (rs.filterMap id) = _
    rw [hfm]
    rfl

theorem parseResponse_error_of_unknown (ctrl : LLMController) (ls : List RespLine)
    (line : RespLine) (cs : Specialist) (hmem : line ∈ ls) (hsep : line.hasSep = true)
    (hdec : line.decoded = some cs)
    (hunknown : ∀ c ∈ ctrl.chains, ¬ strCasefold c.name = strCasefold cs.name) :
    ∃ e, ctrl.parseResponse ls = Except.error e := by
  cases h : ctrl.parseResponse ls with
  | error e => exact ⟨e, rfl⟩
  | ok f =>
    exfalso
    rw [LLMController.parseResponse] at h
    cases hls : ctrl.parseLines ls with
    | error e => rw [hls] at h; cases h
    | ok parsed =>
      obtain ⟨r, hr, _⟩ := parseLines_ok_mem ctrl ls parsed hls line hmem
      unfold LLMController.parseLine at hr
      simp only [hsep, hdec] at hr
      have hf : ctrl.chains.find?
          (fun c => strCasefold c.name = strCasefold cs.name) = none := by
        apply List.find?_eq_none.mpr
        intro c hc
        simpa using hunknown c hc
      rw [hf] at hr
      cases hr

/-! ## Lemma on message building for empty history -/

theorem tryLastUserMessage_eq_none (history : List ChatMessage)
    (h : ∀ m ∈ history, m.kind ≠ ChatMessageKind.User) :
    tryLastUserMessage history = none := by
  rw [tryLastUserMessage]
  apply List.find?_eq_none.mpr
  intro m hm
  simpa [ChatMessage.is_kind_user] using h m (List.mem_reverse.mp hm)

/-! ## String lemmas for execution-log paths -/

theorem str_append_ne_empty (s t : String) (h : ¬ t = "") : ¬ (s ++ t) = "" := by
  intro he
  apply h
  have hd : s.data ++ t.data = [] := by
    have h2 := congrArg String.data he
    rwa [String.data_append] at h2
  exact congrArg String.mk (List.append_eq_nil.mp hd).2

theorem new_for_source (ctx : ExecutionContext) (m : Monitored) :
    (ctx.new_for m).entry.source
      = if ctx.entry.source = "" then m.name
        else ctx.entry.source ++ "/" ++ m.name := rfl

theorem contextFold_source :
    ∀ (names : List String) (ctx : ExecutionContext),
      ¬ ctx.entry.source = "" → (∀ n ∈ names, ¬ n = "") → names ≠ [] →
      (names.foldl (fun c n => c.new_for ⟨n⟩) ctx).entry.source
        = ctx.entry.source ++ "/" ++ joinPath names := by
  intro names
  induction names with
  | nil => intro ctx _ _ hne; exact absurd rfl hne
  | cons n rest ih =>
    intro ctx hctx hnames _
    have hn : ¬ n = "" := hnames n (List.mem_cons_self _ _)
    have hstep : (ctx.new_for ⟨n⟩).entry.source = ctx.entry.source ++ "/" ++ n := by
      rw [new_for_source, if_neg hctx]
    cases rest with
    | nil =>
      show (ctx.new_for ⟨n⟩).entry.source = _
      rw [hstep]
      rfl
    | cons m rest' =>
      show ((m :: rest').foldl (fun c n => c.new_for ⟨n⟩) (ctx.new_for ⟨n⟩)).entry.source = _
      rw [ih (ctx.new_for ⟨n⟩)
          (by rw [hstep]; exact str_append_ne_empty _ _ hn)
          (fun x hx => hnames x (List.mem_cons_of_mem _ hx))
          (by simp)]
      rw [hstep]
      show _ = ctx.entry.source ++ "/" ++ (n ++ "/" ++ joinPath (m :: rest'))
      simp [String.append_assoc]

theorem contextFromRoot_source (names : List String) (h : ∀ n ∈ names, ¬ n = "") :
    (contextFromRoot names).entry.source = joinPath names := by
  cases names with
  | nil => rfl
  | cons n rest =>
    rw [contextFromRoot]
    have hn : ¬ n = "" := h n (List.mem_cons_self _ _)
    have hroot : ((ExecutionContext.create ⟨[]⟩ "").new_for ⟨n⟩).entry.source = n := rfl
    show ((rest).foldl (fun c n => c.new_for ⟨n⟩)
        ((ExecutionContext.create ⟨[]⟩ "").new_for ⟨n⟩)).entry.source = _
    cases rest with
    | nil => rw [List.foldl_nil, hroot]; rfl
    | cons m rest' =>
      rw [contextFold_source (m :: rest') _
          (by rw [hroot]; exact hn)
          (fun x hx => h x (List.mem_cons_of_mem _ hx))
          (by simp)]
      rw [hroot]
      rfl

theorem parseChecks_ok_eq (ctrl : LLMController) (f f' : List (ExecutionUnit × Int))
    (h : ctrl.parseChecks f = Except.ok f') : f' = f := by
  unfold LLMController.parseChecks at h
  by_cases h0 : f.length = 0
  · rw [if_pos h0] at h; cases h
  · rw [if_neg h0] at h
    by_cases hm : 1 < ctrl.topK ∧ 0 < (ctrl.missingNames f).length
    · rw [if_pos hm] at h; cases h
    · rw [if_neg hm] at h
      by_cases hb : f.length ≠ 1 ∧ ctrl.topK = 1
      · rw [if_pos hb] at h; cases h
      · rw [if_neg hb] at h; injection h with h2; exact h2.symm

theorem parseResponse_ok_length_one (ctrl : LLMController) (ls : List RespLine)
    (f : List (ExecutionUnit × Int)) (htk : ctrl.topK = 1)
    (h : ctrl.parseResponse ls = Except.ok f) : f.length = 1 := by
  rw [LLMController.parseResponse] at h
  cases hls : ctrl.parseLines ls with
  | error e => rw [hls] at h; cases h
  | ok parsed =>
    rw [hls] at h
    rw [parseChecks_ok_eq ctrl _ f h]
    exact parseChecks_ok_length_one ctrl _ f htk h

theorem parseResponse_ok_coverage (ctrl : LLMController) (ls : List RespLine)
    (f : List (ExecutionUnit × Int)) (ch : ChainBase) (htk : 1 < ctrl.topK)
    (h : ctrl.parseResponse ls = Except.ok f) (hch : ch ∈ ctrl.chains) :
    ch.name ∈ LLMController.actualNames f := by
  rw [LLMController.parseResponse] at h
  cases hls : ctrl.parseLines ls with
  | error e => rw [hls] at h; cases h
  | ok parsed =>
    rw [hls] at h
    rw [parseChecks_ok_eq ctrl _ f h]
    exact parseChecks_ok_coverage ctrl _ f ch htk h hch

/-! ## Claim theorems -/

/-- C3: when every attempt's response fails parsing (e.g. the same malformed text each
time), `_execute` makes exactly `self._retry = 3` model calls and then raises the
exhausted-retries controller failure — never more and never fewer — so the retry loop
terminates. -/
theorem claim_C3_retries_exhausted (ctrl : LLMController) (systemMessage : String)
    (history : List ChatMessage) (respond : List LLMMessage → LLMResponse)
    (hfail : ∀ ms, ∃ e, ctrl.parseResponse (respond ms).lines = Except.error e) :
    ctrl.execute systemMessage history respond = (ExecOutcome.exhausted, 3) := by
  rw [LLMController.execute, executeFrom_allfail ctrl respond hfail 3 _ _ 0]

/-- Witness for C3: a model stub returning the same malformed text on every attempt
makes the controller do exactly 3 calls and raise the exhausted failure. -/
theorem claim_C3_witness :
    (∀ ms, ∃ e, cfgC1.parseResponse (respondC3 ms).lines = Except.error e) ∧
    cfgC1.execute "sys" histU respondC3 = (ExecOutcome.exhausted, 3) :=
  ⟨fun _ => ⟨_, rfl⟩,
   claim_C3_retries_exhausted cfgC1 "sys" histU respondC3 (fun _ => ⟨_, rfl⟩)⟩

/-- C4: every plan the controller returns arises from a successfully parsed candidate
list as the stable descending sort, filtered to scores meeting `response_threshold`,
truncated to `top_k`: the scored plan is sorted by descending score, no retained unit
has an underlying score below the threshold, the plan length is at most
`min top_k N`, and the sort preserves parse order among equal scores. -/
theorem claim_C4_plan_shape (chains : List ChainBase) (t : ℚ) (k : Nat)
    (systemMessage : String) (history : List ChatMessage)
    (respond : List LLMMessage → LLMResponse) (p : List ExecutionUnit) (c : Nat)
    (hplan : (LLMController.init chains t (some k)).execute systemMessage history respond
        = (ExecOutcome.plan p, c)) :
    ∃ ms filtered,
      (LLMController.init chains t (some k)).parseResponse (respond ms).lines
          = Except.ok filtered ∧
      p = ((LLMController.init chains t (some k)).scoredPlanOf filtered).map Prod.fst ∧
      List.Pairwise (fun a b => b.2 ≤ a.2)
        ((LLMController.init chains t (some k)).scoredPlanOf filtered) ∧
      (∀ it ∈ (LLMController.init chains t (some k)).scoredPlanOf filtered,
        t ≤ (it.2 : ℚ)) ∧
      p.length ≤ min k chains.length ∧
      (∀ s : Int, (sortDesc filtered).filter (fun it => decide (it.2 = s))
          = filtered.filter (fun it => decide (it.2 = s))) := by
  obtain ⟨ms, filtered, hok, hp⟩ :=
    executeFrom_plan_inv (LLMController.init chains t (some k)) respond 3
      (buildLLMMessages systemMessage history) [] 0 p c hplan
  refine ⟨ms, filtered, hok, by rw [hp, planOf_eq_map],
    scoredPlanOf_pairwise _ _,
    fun it hit => scoredPlanOf_threshold _ _ it hit, ?_,
    fun s => sortDesc_filter_key s filtered⟩
  rw [hp, planOf_eq_map, List.length_map]
  exact scoredPlanOf_length (LLMController.init chains t (some k)) filtered

/-- Witness for C4: chains `{A, B, C}`, threshold 5, `top_k = 2`, response
`A;8 / B;3 / C;9` gives the plan `[C, A]` in one call, with all the claimed
properties. -/
theorem claim_C4_witness :
    cfgC4.execute "sys" histU respondC4
        = (ExecOutcome.plan [LLMController.buildExecutionUnit chC "" 9,
            LLMController.buildExecutionUnit chA "" 8], 1) ∧
    (∃ ms filtered,
      cfgC4.parseResponse (respondC4 ms).lines = Except.ok filtered ∧
      [LLMController.buildExecutionUnit chC "" 9,
        LLMController.buildExecutionUnit chA "" 8]
          = (cfgC4.scoredPlanOf filtered).map Prod.fst ∧
      List.Pairwise (fun a b => b.2 ≤ a.2) (cfgC4.scoredPlanOf filtered) ∧
      (∀ it ∈ cfgC4.scoredPlanOf filtered, (5 : ℚ) ≤ (it.2 : ℚ)) ∧
      ([LLMController.buildExecutionUnit chC "" 9,
        LLMController.buildExecutionUnit chA "" 8] : List ExecutionUnit).length
          ≤ min 2 [chA, chB, chC].length ∧
      (∀ s : Int, (sortDesc filtered).filter (fun it => decide (it.2 = s))
          = filtered.filter (fun it => decide (it.2 = s)))) :=
  ⟨by decide,
   claim_C4_plan_shape [chA, chB, chC] 5 2 "sys" histU respondC4
     [LLMController.buildExecutionUnit chC "" 9,
       LLMController.buildExecutionUnit chA "" 8] 1 (by decide)⟩

/-- C6: with effective `top_k > 1`, a response whose parsed candidates miss a known
chain makes `_parse_response` raise; while retries remain `_execute` catches the
error, consumes one retry, and re-enters the loop with the corrective follow-up
messages appended — the failure does not propagate to the caller. -/
theorem claim_C6_missing_chain_retried (ctrl : LLMController)
    (respond : List LLMMessage → LLMResponse) (r : Nat) (msgs nm : List LLMMessage)
    (calls : Nat) (ch : ChainBase) (htk : 1 < ctrl.topK) (hch : ch ∈ ctrl.chains)
    (habsent : ∀ filtered,
      ctrl.parseResponse (respond (msgs ++ nm)).lines = Except.ok filtered →
      ch.name ∉ LLMController.actualNames filtered) :
    ∃ e, ctrl.parseResponse (respond (msgs ++ nm)).lines = Except.error e ∧
      ctrl.executeFrom respond (r + 1) msgs nm calls
        = ctrl.executeFrom respond r (msgs ++ nm)
            (handleError e (assistantText e (respond (msgs ++ nm)).text))
            (calls + 1) := by
  cases hp : ctrl.parseResponse (respond (msgs ++ nm)).lines with
  | ok f =>
    exact absurd (parseResponse_ok_coverage ctrl _ f ch htk hp hch) (habsent f hp)
  | error e =>
    exact ⟨e, rfl, executeFrom_error_step ctrl respond r msgs nm calls e hp⟩

/-- Witness for C6: chains `{A, B}` with `top_k = 2`; the response scores only `A`,
so chain `B` is missing, the parse raises, and the loop retries with the corrective
follow-up. -/
theorem claim_C6_witness :
    1 < cfgC6.topK ∧ chB ∈ cfgC6.chains ∧
    (∃ e, cfgC6.parseResponse
          (respondC6 (buildLLMMessages "sys" histU ++ [])).lines = Except.error e ∧
      cfgC6.executeFrom respondC6 (2 + 1) (buildLLMMessages "sys" histU) [] 0
        = cfgC6.executeFrom respondC6 2 (buildLLMMessages "sys" histU ++ [])
            (handleError e (assistantText e
              (respondC6 (buildLLMMessages "sys" histU ++ [])).text)) (0 + 1)) :=
  ⟨by decide, by decide,
   claim_C6_missing_chain_retried cfgC6 respondC6 2 (buildLLMMessages "sys" histU) [] 0
     chB (by decide) (by decide)
     (fun f hf => by
       rw [show cfgC6.parseResponse
           (respondC6 (buildLLMMessages "sys" histU ++ [])).lines
           = Except.error (CtrlError.controller
               ("Missing scores for " ++ pyListRepr ["B"]
                 ++ ". Follow exactly your instructions.")) from rfl] at hf
       cases hf)⟩

/-- C7: parsing ignores lines lacking the field separator (removing them changes
nothing, so they are skipped without error); the recoverable `LLMParsingException` is
raised exactly when no line decodes into a candidate; and such an error makes the
retry loop consume one retry with the corrective follow-up messages. -/
theorem claim_C7_skip_and_empty_parse (ctrl : LLMController) (ls : List RespLine)
    (respond : List LLMMessage → LLMResponse) (r : Nat) (msgs nm : List LLMMessage)
    (calls : Nat) :
    ctrl.parseResponse ls = ctrl.parseResponse (ls.filter (fun l => l.hasSep)) ∧
    ((∃ m, ctrl.parseResponse ls = Except.error (CtrlError.parsing m))
        ↔ decodedCandidates ls = []) ∧
    (∀ m, ctrl.parseResponse (respond (msgs ++ nm)).lines
          = Except.error (CtrlError.parsing m) →
      ctrl.executeFrom respond (r + 1) msgs nm calls
        = ctrl.executeFrom respond r (msgs ++ nm)
            (handleError (CtrlError.parsing m)
              (assistantText (CtrlError.parsing m) (respond (msgs ++ nm)).text))
            (calls + 1)) :=
  ⟨parseResponse_sep_filter ctrl ls, parseResponse_parsing_iff ctrl ls,
   fun _ hm => executeFrom_error_step ctrl respond r msgs nm calls _ hm⟩

/-- Witness for C7: response lines mixing a separator-free line with the valid line
`A;4`, instantiated for the controller over `{A, B, C}`. -/
theorem claim_C7_witness :
    cfgC4.parseResponse linesC7
        = cfgC4.parseResponse (linesC7.filter (fun l => l.hasSep)) ∧
    ((∃ m, cfgC4.parseResponse linesC7 = Except.error (CtrlError.parsing m))
        ↔ decodedCandidates linesC7 = []) ∧
    (∀ m, cfgC4.parseResponse (respondC3 (buildLLMMessages "sys" histU ++ [])).lines
          = Except.error (CtrlError.parsing m) →
      cfgC4.executeFrom respondC3 (2 + 1) (buildLLMMessages "sys" histU) [] 0
        = cfgC4.executeFrom respondC3 2 (buildLLMMessages "sys" histU ++ [])
            (handleError (CtrlError.parsing m)
              (assistantText (CtrlError.parsing m)
                (respondC3 (buildLLMMessages "sys" histU ++ [])).text)) (0 + 1)) :=
  claim_C7_skip_and_empty_parse cfgC4 linesC7 respondC3 2
    (buildLLMMessages "sys" histU) [] 0

/-- C1 counterexample: with the single known chain `A` and a model that always
answers with the unknown specialist `B` from the very first attempt,
`_parse_response` does raise the `ControllerException`, yet `_execute` issues all 3
model calls — each consuming a retry — and terminates with the generic
exhausted-retries failure, contradicting "raises immediately, without consuming a
retry and without issuing any further model call". -/
theorem claim_C1_counterexample :
    cfgC1.parseResponse (respondC1 []).lines
        = Except.error (CtrlError.controller "The Specialist `B` does not exist.") ∧
    cfgC1.execute "sys" histU respondC1 = (ExecOutcome.exhausted, 3) := by
  exact ⟨rfl, by decide⟩

/-- C1 amended: a parsable candidate line naming an unknown chain makes
`_parse_response` raise a `ControllerException`; while retries remain, `_execute`
catches it like any other exception, consumes one retry, appends the corrective
follow-up messages, and calls the model again instead of propagating the error. -/
theorem claim_C1_unknown_name_retried (ctrl : LLMController)
    (respond : List LLMMessage → LLMResponse) (r : Nat) (msgs nm : List LLMMessage)
    (calls : Nat) (line : RespLine) (cs : Specialist)
    (hmem : line ∈ (respond (msgs ++ nm)).lines) (hsep : line.hasSep = true)
    (hdec : line.decoded = some cs)
    (hunknown : ∀ c ∈ ctrl.chains, ¬ strCasefold c.name = strCasefold cs.name) :
    (∃ e, ctrl.parseResponse (respond (msgs ++ nm)).lines = Except.error e) ∧
    (∀ e, ctrl.parseResponse (respond (msgs ++ nm)).lines = Except.error e →
      ctrl.executeFrom respond (r + 1) msgs nm calls
        = ctrl.executeFrom respond r (msgs ++ nm)
            (handleError e (assistantText e (respond (msgs ++ nm)).text))
            (calls + 1)) :=
  ⟨parseResponse_error_of_unknown ctrl _ line cs hmem hsep hdec hunknown,
   fun e he => executeFrom_error_step ctrl respond r msgs nm calls e he⟩

/-- Witness for the amended C1: the model answers `B;5` while only chain `A` exists;
the parse errors and the first attempt hands the loop over to the second attempt with
one retry consumed. -/
theorem claim_C1_witness :
    (mkLine "B" 5 ∈ (respondC1 (buildLLMMessages "sys" histU ++ [])).lines) ∧
    (mkLine "B" 5).hasSep = true ∧
    (mkLine "B" 5).decoded = some ⟨"B", 5, "", "j"⟩ ∧
    (∀ c ∈ cfgC1.chains, ¬ strCasefold c.name = strCasefold "B") ∧
    ((∃ e, cfgC1.parseResponse
        (respondC1 (buildLLMMessages "sys" histU ++ [])).lines = Except.error e) ∧
     (∀ e, cfgC1.parseResponse
          (respondC1 (buildLLMMessages "sys" histU ++ [])).lines = Except.error e →
       cfgC1.executeFrom respondC1 (2 + 1) (buildLLMMessages "sys" histU) [] 0
         = cfgC1.executeFrom respondC1 2 (buildLLMMessages "sys" histU ++ [])
             (handleError e (assistantText e
               (respondC1 (buildLLMMessages "sys" histU ++ [])).text)) (0 + 1))) :=
  ⟨by decide, by decide, by decide, by decide,
   claim_C1_unknown_name_retried cfgC1 respondC1 2 (buildLLMMessages "sys" histU) []
     0 (mkLine "B" 5) ⟨"B", 5, "", "j"⟩ (by decide) (by decide) (by decide)
     (by decide)⟩

/-- C2 counterexample: (i) with `top_k = 1` and `response_threshold = 5`, the
response parsing to exactly the one valid candidate `A;3` yields the empty plan, not
a one-element plan; (ii) with `top_k = 1` and two scored lines `A;8`, `B;9` in one
response, the controller does not raise with no retry attempted: it makes all 3
calls and ends with the exhausted-retries failure. -/
theorem claim_C2_counterexample :
    cfgC2a.execute "sys" histU respondC2a = (ExecOutcome.plan [], 1) ∧
    cfgC2b.execute "sys" histU respondC2b = (ExecOutcome.exhausted, 3) := by
  exact ⟨by decide, by decide⟩

/-- C2 amended: with `top_k = 1`, a response parsing to exactly one valid candidate
whose score meets `response_threshold` yields that one-element plan in this attempt;
a successful parse can never contain two or more candidates (so multiple candidates
are never silently resolved by picking one — they raise `ControllerException`); and
any parse error, while retries remain, consumes one retry and re-enters the loop with
corrective follow-ups instead of being raised with no retry attempted. -/
theorem claim_C2_topk_one (ctrl : LLMController)
    (respond : List LLMMessage → LLMResponse) (r : Nat) (msgs nm : List LLMMessage)
    (calls : Nat) (x : ExecutionUnit × Int) (htk : ctrl.topK = 1) :
    (ctrl.parseResponse (respond (msgs ++ nm)).lines = Except.ok [x] →
      ctrl.responseThreshold ≤ (x.2 : ℚ) →
      ctrl.executeFrom respond (r + 1) msgs nm calls
        = (ExecOutcome.plan [x.1], calls + 1)) ∧
    (∀ filtered, ctrl.parseResponse (respond (msgs ++ nm)).lines = Except.ok filtered →
      filtered.length = 1) ∧
    (∀ e, ctrl.parseResponse (respond (msgs ++ nm)).lines = Except.error e →
      ctrl.executeFrom respond (r + 1) msgs nm calls
        = ctrl.executeFrom respond r (msgs ++ nm)
            (handleError e (assistantText e (respond (msgs ++ nm)).text))
            (calls + 1)) := by
  refine ⟨?_, fun f hf => parseResponse_ok_length_one ctrl _ f htk hf,
    fun e he => executeFrom_error_step ctrl respond r msgs nm calls e he⟩
  intro h1 h2
  rw [executeFrom_ok_step ctrl respond r msgs nm calls [x] h1]
  have hplan : ctrl.planOf [x] = [x.1] := by
    rw [LLMController.planOf, htk]
    rw [show sortDesc [x] = [x] from rfl]
    simp [List.filter_cons, h2]
  rw [hplan]

/-- Witness for the amended C2: `top_k = 1` over the single chain `A`, response
`A;7`, threshold 0: the plan is exactly that one unit after one call. -/
theorem claim_C2_witness :
    cfgC2c.topK = 1 ∧
    cfgC2c.executeFrom respondC5 (2 + 1) (buildLLMMessages "sys" histU) [] 0
      = (ExecOutcome.plan [(LLMController.buildExecutionUnit chA "" 7, 7).1], 0 + 1) :=
  ⟨by decide,
   (claim_C2_topk_one cfgC2c respondC5 2 (buildLLMMessages "sys" histU) [] 0
       (LLMController.buildExecutionUnit chA "" 7, 7) (by decide)).1 rfl (by decide)⟩

/-- C5 counterexample: with an empty history (no user-authored message) the request
contains only the system message, yet the controller still makes a model call — here
exactly one — and, the stub answering `A;7`, produces a nonempty plan rather than the
empty plan with no scoring request. -/
theorem claim_C5_counterexample :
    buildLLMMessages "sys" [] = [LLMMessage.mk LLMRole.system "sys"] ∧
    cfgC1.execute "sys" [] respondC5
      = (ExecOutcome.plan [LLMController.buildExecutionUnit chA "" 7], 1) := by
  exact ⟨by decide, by decide⟩

/-- C5 amended: when the history holds no user-authored message, the scoring user
instruction is omitted — the request is only the stored system message — but the
controller still issues at least one model call and computes its plan from the
response as usual. -/
theorem claim_C5_no_user_message (ctrl : LLMController) (systemMessage : String)
    (history : List ChatMessage) (respond : List LLMMessage → LLMResponse)
    (h : ∀ m ∈ history, m.kind ≠ ChatMessageKind.User) :
    buildLLMMessages systemMessage history
        = [LLMMessage.mk LLMRole.system systemMessage] ∧
    1 ≤ (ctrl.execute systemMessage history respond).2 := by
  constructor
  · rw [buildLLMMessages, tryLastUserMessage_eq_none history h]
  · rw [LLMController.execute]
    exact executeFrom_calls_pos ctrl respond 2 (buildLLMMessages systemMessage history) [] 0

/-- Witness for the amended C5: empty history. -/
theorem claim_C5_witness :
    (∀ m ∈ ([] : List ChatMessage), m.kind ≠ ChatMessageKind.User) ∧
    (buildLLMMessages "sys" [] = [LLMMessage.mk LLMRole.system "sys"] ∧
      1 ≤ (cfgC1.execute "sys" [] respondC5).2) :=
  ⟨fun m hm => absurd hm (List.not_mem_nil m),
   claim_C5_no_user_message cfgC1 "sys" [] respondC5
     (fun m hm => absurd hm (List.not_mem_nil m))⟩

/-- C8: a child entry created through `new_for` has path equal to the parent path,
"/", and the child name — just the child name when the parent path is empty — and
consequently the path of a context reached from the root by monitoring a list of
nonempty names in order is exactly those names joined by "/". -/
theorem claim_C8_child_entry_path :
    (∀ (ctx : ExecutionContext) (m : Monitored),
      (ctx.new_for m).entry.source
        = if ctx.entry.source = "" then m.name
          else ctx.entry.source ++ "/" ++ m.name) ∧
    (∀ names : List String, (∀ n ∈ names, ¬ n = "") →
      (contextFromRoot names).entry.source = joinPath names) :=
  ⟨fun ctx m => new_for_source ctx m, fun names h => contextFromRoot_source names h⟩

/-- Witness for C8: a concrete two-level context and the concrete chain of names
`agent / controller / llm`. -/
theorem claim_C8_witness :
    ((contextFromRoot ["agent"]).new_for ⟨"controller"⟩).entry.source
        = (if (contextFromRoot ["agent"]).entry.source = "" then "controller"
           else (contextFromRoot ["agent"]).entry.source ++ "/" ++ "controller") ∧
    (∀ n ∈ ["agent", "controller", "llm"], ¬ n = "") ∧
    (contextFromRoot ["agent", "controller", "llm"]).entry.source
        = joinPath ["agent", "controller", "llm"] :=
  ⟨claim_C8_child_entry_path.1 (contextFromRoot ["agent"]) ⟨"controller"⟩,
   by decide,
   claim_C8_child_entry_path.2 ["agent", "controller", "llm"] (by decide)⟩

/-- C9: the four comparison operators of `ScoredChatMessage` depend only on the score
fields — each holds exactly when the corresponding comparison of scores holds, and
replacing the wrapped messages changes none of them. -/
theorem claim_C9_scored_message_order (a b : ScoredChatMessage) :
    (ScoredChatMessage.lt a b = true ↔ a.score < b.score) ∧
    (ScoredChatMessage.gt a b = true ↔ a.score > b.score) ∧
    (ScoredChatMessage.le a b = true ↔ a.score ≤ b.score) ∧
    (ScoredChatMessage.ge a b = true ↔ a.score ≥ b.score) ∧
    (∀ m m' : ChatMessage,
      ScoredChatMessage.lt ⟨m, a.score⟩ ⟨m', b.score⟩ = ScoredChatMessage.lt a b ∧
      ScoredChatMessage.gt ⟨m, a.score⟩ ⟨m', b.score⟩ = ScoredChatMessage.gt a b ∧
      ScoredChatMessage.le ⟨m, a.score⟩ ⟨m', b.score⟩ = ScoredChatMessage.le a b ∧
      ScoredChatMessage.ge ⟨m, a.score⟩ ⟨m', b.score⟩ = ScoredChatMessage.ge a b) := by
  refine ⟨?_, ?_, ?_, ?_, fun m m' => ⟨rfl, rfl, rfl, rfl⟩⟩ <;>
    simp [ScoredChatMessage.lt, ScoredChatMessage.gt, ScoredChatMessage.le,
      ScoredChatMessage.ge]

/-- Witness for C9 at two concrete scored messages with scores 1 and 2. -/
theorem claim_C9_witness :
    (ScoredChatMessage.lt ⟨ChatMessage.user "u" none "" false, 1⟩
        ⟨ChatMessage.agent "a" none "" false, 2⟩ = true
      ↔ (ScoredChatMessage.mk (ChatMessage.user "u" none "" false) 1).score
          < (ScoredChatMessage.mk (ChatMessage.agent "a" none "" false) 2).score) :=
  (claim_C9_scored_message_order ⟨ChatMessage.user "u" none "" false, 1⟩
    ⟨ChatMessage.agent "a" none "" false, 2⟩).1

/-- C10: `is_ok` is exactly the negation of `is_error` (exactly one holds); the
factories `user`/`agent`/`skill`/`chain` build messages of kind
`User`/`Agent`/`Skill`/`Chain` with the given error flag, and `is_of_kind k` holds
for exactly that kind; all embedded operations are pure accessors, so kind and error
flag are fixed at construction. -/
theorem claim_C10_message_invariants (msg : String) (d : Option String) (src : String)
    (err : Bool) (k : ChatMessageKind) (m : ChatMessage) :
    (m.is_ok = !m.is_error) ∧ (m.is_ok = true ↔ m.is_error = false) ∧
    ((ChatMessage.user msg d src err).kind = ChatMessageKind.User) ∧
    ((ChatMessage.agent msg d src err).kind = ChatMessageKind.Agent) ∧
    ((ChatMessage.skill msg d src err).kind = ChatMessageKind.Skill) ∧
    ((ChatMessage.chain msg d src err).kind = ChatMessageKind.Chain) ∧
    ((ChatMessage.user msg d src err).is_of_kind k = true ↔ k = ChatMessageKind.User) ∧
    ((ChatMessage.agent msg d src err).is_of_kind k = true ↔ k = ChatMessageKind.Agent) ∧
    ((ChatMessage.skill msg d src err).is_of_kind k = true ↔ k = ChatMessageKind.Skill) ∧
    ((ChatMessage.chain msg d src err).is_of_kind k = true ↔ k = ChatMessageKind.Chain) ∧
    ((ChatMessage.user msg d src err).is_error = err) := by
  obtain ⟨mm, mk, md, ms, me⟩ := m
  refine ⟨rfl, ?_, rfl, rfl, rfl, rfl, ?_, ?_, ?_, ?_, rfl⟩
  · cases me <;> simp [ChatMessage.is_ok, ChatMessage.is_error]
  · cases k <;> simp [ChatMessage.is_of_kind, ChatMessage.user]
  · cases k <;> simp [ChatMessage.is_of_kind, ChatMessage.agent]
  · cases k <;> simp [ChatMessage.is_of_kind, ChatMessage.skill]
  · cases k <;> simp [ChatMessage.is_of_kind, ChatMessage.chain]

/-- Witness for C10 at a concrete message: a user-built message with error flag
`true`. -/
theorem claim_C10_witness :
    ((ChatMessage.agent "x" none "s" true).is_ok
        = !(ChatMessage.agent "x" none "s" true).is_error) ∧
    ((ChatMessage.agent "x" none "s" true).is_ok = true
        ↔ (ChatMessage.agent "x" none "s" true).is_error = false) ∧
    ((ChatMessage.user "u" none "" false).kind = ChatMessageKind.User) ∧
    ((ChatMessage.agent "u" none "" false).kind = ChatMessageKind.Agent) ∧
    ((ChatMessage.skill "u" none "" false).kind = ChatMessageKind.Skill) ∧
    ((ChatMessage.chain "u" none "" false).kind = ChatMessageKind.Chain) ∧
    ((ChatMessage.user "u" none "" false).is_of_kind ChatMessageKind.Skill = true
        ↔ ChatMessageKind.Skill = ChatMessageKind.User) ∧
    ((ChatMessage.agent "u" none "" false).is_of_kind ChatMessageKind.Skill = true
        ↔ ChatMessageKind.Skill = ChatMessageKind.Agent) ∧
    ((ChatMessage.skill "u" none "" false).is_of_kind ChatMessageKind.Skill = true
        ↔ ChatMessageKind.Skill = ChatMessageKind.Skill) ∧
    ((ChatMessage.chain "u" none "" false).is_of_kind ChatMessageKind.Skill = true
        ↔ ChatMessageKind.Skill = ChatMessageKind.Chain) ∧
    ((ChatMessage.user "u" none "" false).is_error = false) :=
  claim_C10_message_invariants "u" none "" false ChatMessageKind.Skill
    (ChatMessage.agent "x" none "s" true)
